import Mathlib

/-
Verification of the plagiarism-detection core of the Plagiarism-Detector
repository (FastAPI + scikit-learn course-assignment portal).

The Python sources are shallowly embedded below:

  app/utils/text_processing.py  -> tokenize_text, remove_references,
                                   remove_quotes, preprocess_document,
                                   get_word_set
  app/utils/file_utils.py       -> get_file_extension, convert_pdf_to_text,
                                   convert_docx_to_text, convert_to_text
  app/services/plagiarism_service.py
                                -> check_plagiarism, compareWithAssignments
                                   (_compare_with_assignments),
                                   fallbackComparison (_fallback_comparison),
                                   checkExternalSources (_check_external_sources),
                                   createEmptyReport (_create_empty_report)

External collaborators (PyPDF2, python-docx, scikit-learn TF-IDF + cosine
similarity, the googlesearch client, and the NLTK word tokenizer) are
modelled as oracle fields of an Env record, exactly at the call boundary
the Python code uses them.  Machine floats are modelled as rationals with
an explicit model of round(x, 2) (round half to even); similarity values
carried in reports always have hundredth granularity, which the lemmas
below make precise.  Bytes are Fin 256, texts are Lean strings.

Python regular-expression substitutions are modelled as executable
character-list scanners implementing the exact patterns used by the
source (the patterns are fixed literals, so each one is compiled by hand
into a deterministic matcher; backtracking was resolved on paper and is
noted at each matcher).  The character class modelled for regex word
characters is the ASCII core of Python's unicode-aware class.
-/

/-! ## Python string primitives -/

/-- Python whitespace class for the ASCII range: the characters matched by
the regex class for whitespace and by str.strip / str.split. -/
def pyIsSpace (c : Char) : Bool :=
  c = ' ' || c = '\t' || c = '\n' || c = '\r' || c = '\x0b' || c = '\x0c'

/-- ASCII core of the regex word-character class: alphanumerics and the
underscore. -/
def isWordChar (c : Char) : Bool :=
  c.isAlphanum || c = '_'

/-- str.strip on a character list: drop leading and trailing whitespace. -/
def pyStripList (l : List Char) : List Char :=
  ((l.dropWhile pyIsSpace).reverse.dropWhile pyIsSpace).reverse

/-- Python str.strip(). -/
def pyStrip (s : String) : String :=
  ⟨pyStripList s.data⟩

/-- Helper for pySplit: accumulates the current word (reversed). -/
def pySplitAux : List Char → List Char → List String
  | [], acc => if acc.isEmpty then [] else [⟨acc.reverse⟩]
  | c :: cs, acc =>
    if pyIsSpace c then
      if acc.isEmpty then pySplitAux cs []
      else (⟨acc.reverse⟩ : String) :: pySplitAux cs []
    else pySplitAux cs (c :: acc)

/-- Python str.split() with no argument: split on whitespace runs,
dropping empty pieces. -/
def pySplit (s : String) : List String :=
  pySplitAux s.data []

/-! ## Python round(x, 2) on rationals -/

/-- Round half to even to an integer, the rounding used by Python's
round builtin (modelled on exact rationals). -/
def rhe (q : ℚ) : ℤ :=
  if q - (⌊q⌋ : ℚ) = 1 / 2 then
    (if ⌊q⌋ % 2 = 0 then ⌊q⌋ else ⌊q⌋ + 1)
  else round q

/-- Python round(x, 2): keep two decimal places, rounding half to even. -/
def pyRound2 (q : ℚ) : ℚ :=
  ((rhe (q * 100) : ℤ) : ℚ) / 100

/-- f-string formatting with two decimal places, as used for the
auto-grade comment; rendered from the half-to-even rounded hundredths. -/
def fmt2 (q : ℚ) : String :=
  let n := rhe (q * 100)
  let a := n.natAbs
  (if n < 0 then "-" else "") ++ toString (a / 100) ++ "." ++
    (if a % 100 < 10 then "0" else "") ++ toString (a % 100)

/-- Python str.lower(), per character (String.map is not used because it
does not reduce definitionally; the data-level map is the same
function). -/
def pyToLower (s : String) : String :=
  ⟨s.data.map Char.toLower⟩

/-! ## text_processing.py -/

/-- tokenize_text: NLTK word_tokenize over the lowercased text, falling
back to plain whitespace splitting when the tokenizer raises.  The NLTK
tokenizer is an external collaborator, passed in as an oracle that
returns none when it raises. -/
def tokenize_text (tok : String → Option (List String)) (text : String) :
    List String :=
  match tok (pyToLower text) with
  | some ts => ts
  | none => pySplit (pyToLower text)

/-- get_word_set: keep tokens longer than two characters whose characters
are all alphanumeric (Python str.isalnum on a token of length > 2), as a
set. -/
def get_word_set (tok : String → Option (List String)) (text : String) :
    Finset String :=
  ((tokenize_text tok text).filter
    (fun t => decide (t.length > 2) && t.data.all Char.isAlphanum)).toFinset

/-- Boundary test before a match position (regex word boundary): start of
string or a non-word character. -/
def boundaryBefore : Option Char → Bool
  | none => true
  | some c => !isWordChar c

/-- Boundary test after a match (regex word boundary): end of string or a
non-word character. -/
def boundaryAfter : List Char → Bool
  | [] => true
  | c :: _ => !isWordChar c

/-- Case-insensitive literal prefix match; the pattern is given lowercase
and the remaining input is returned on success. -/
def ciPrefixAfter : List Char → List Char → Option (List Char)
  | [], rest => some rest
  | _ :: _, [] => none
  | a :: ws, c :: cs => if c.toLower = a then ciPrefixAfter ws cs else none

/-- Matcher for the case-insensitive word-bounded pattern Reference with
an optional trailing s (the References heading regex of
remove_references).  The optional s is greedy; if the character after the
optional s is a word character the whole alternative fails, matching the
backtracking behaviour of the Python engine. -/
def matchRefAt (prev : Option Char) (l : List Char) : Bool :=
  boundaryBefore prev &&
    (match ciPrefixAfter "reference".data l with
     | none => false
     | some rest =>
       match rest with
       | [] => true
       | c :: cs => if c.toLower = 's' then boundaryAfter cs else !isWordChar c)

/-- Matcher for the case-insensitive word-bounded Bibliography heading. -/
def matchBibAt (prev : Option Char) (l : List Char) : Bool :=
  boundaryBefore prev &&
    (match ciPrefixAfter "bibliography".data l with
     | none => false
     | some rest => boundaryAfter rest)

/-- Matcher for the case-insensitive word-bounded Works Cited heading with
one or more whitespace characters between the two words. -/
def matchWorksCitedAt (prev : Option Char) (l : List Char) : Bool :=
  boundaryBefore prev &&
    (match ciPrefixAfter "works".data l with
     | none => false
     | some rest =>
       let ws := rest.takeWhile pyIsSpace
       !ws.isEmpty &&
         (match ciPrefixAfter "cited".data (rest.dropWhile pyIsSpace) with
          | none => false
          | some r2 => boundaryAfter r2))

/-- Truncation scanner for the heading regexes of remove_references: the
pattern continues to the end of the string, so the substitution keeps
only the prefix before the first match.  The scanner carries the
previous character for the word-boundary test. -/
def truncAux (p : Option Char → List Char → Bool) :
    Option Char → List Char → List Char
  | _, [] => []
  | prev, c :: cs =>
    if p prev (c :: cs) then [] else c :: truncAux p (some c) cs

/-- Truncate a text at the first match of a heading pattern. -/
def truncAtFirst (p : Option Char → List Char → Bool) (l : List Char) :
    List Char :=
  truncAux p none l

/-- Global substitution with empty replacement: scan left to right, at
each position remove a match when the matcher returns its length,
otherwise keep the character.  Fuel is the input length; every step
consumes at least one character, so the fuel never runs out on the
inputs actually passed (subAll below). -/
def subAllFuel (f : List Char → Option ℕ) : ℕ → List Char → List Char
  | 0, l => l
  | _ + 1, [] => []
  | fuel + 1, c :: cs =>
    match f (c :: cs) with
    | some n =>
      if n = 0 then c :: subAllFuel f fuel cs
      else subAllFuel f fuel (cs.drop (n - 1))
    | none => c :: subAllFuel f fuel cs

/-- re.sub(pattern, empty, text) for a pattern given as a
match-length-at-position function. -/
def subAll (f : List Char → Option ℕ) (l : List Char) : List Char :=
  subAllFuel f l.length l

/-- Matcher for a bracketed citation: an opening square bracket, one or
more digits, a closing square bracket.  Returns the match length. -/
def matchBracketNum : List Char → Option ℕ
  | '[' :: rest =>
    let ds := rest.takeWhile Char.isDigit
    if ds.isEmpty then none
    else
      match rest.drop ds.length with
      | ']' :: _ => some (ds.length + 2)
      | _ => none
  | _ => none

/-- Four digits followed by a closing parenthesis. -/
def digits4Paren : List Char → Bool
  | a :: b :: c :: d :: ')' :: _ =>
    a.isDigit && b.isDigit && c.isDigit && d.isDigit
  | _ => false

/-- Matcher for the inline citation pattern: open parenthesis, one or
more word characters, an optional comma, optional whitespace, exactly
four digits, close parenthesis.  The greedy word run either ends at the
comma or whitespace, or (when the close parenthesis follows the run
directly) backtracks to leave exactly the last four digits of the run;
the character classes are disjoint, so the resolution is deterministic. -/
def matchCiteYear : List Char → Option ℕ
  | '(' :: rest =>
    let w := rest.takeWhile isWordChar
    if w.isEmpty then none
    else
      match rest.drop w.length with
      | ',' :: a2 =>
        let ws := a2.takeWhile pyIsSpace
        if digits4Paren (a2.drop ws.length) then
          some (1 + w.length + 1 + ws.length + 5)
        else none
      | c :: cs =>
        if pyIsSpace c then
          let ws := (c :: cs).takeWhile pyIsSpace
          if digits4Paren ((c :: cs).drop ws.length) then
            some (1 + w.length + ws.length + 5)
          else none
        else if c = ')' && decide (w.length ≥ 5) &&
            (w.drop (w.length - 4)).all Char.isDigit then
          some (1 + w.length + 1)
        else none
      | [] => none
  | _ => none

/-- Matcher for the et-al citation pattern: open parenthesis, word run,
whitespace, the literal letters et, whitespace, the literal letters al
and a period, optional comma, optional whitespace, four digits, close
parenthesis (case sensitive, as in the source pattern). -/
def matchCiteEtAl : List Char → Option ℕ
  | '(' :: rest =>
    let w := rest.takeWhile isWordChar
    if w.isEmpty then none
    else
      let a1 := rest.drop w.length
      let ws1 := a1.takeWhile pyIsSpace
      if ws1.isEmpty then none
      else
        match a1.drop ws1.length with
        | 'e' :: 't' :: a3 =>
          let ws2 := a3.takeWhile pyIsSpace
          if ws2.isEmpty then none
          else
            match a3.drop ws2.length with
            | 'a' :: 'l' :: '.' :: a5 =>
              let ca : ℕ × List Char :=
                match a5 with
                | ',' :: r => (1, r)
                | _ => (0, a5)
              let ws3 := ca.2.takeWhile pyIsSpace
              if digits4Paren (ca.2.drop ws3.length) then
                some (1 + w.length + ws1.length + 2 + ws2.length + 3 +
                  ca.1 + ws3.length + 5)
              else none
            | _ => none
        | _ => none
  | _ => none

/-- remove_references: truncate at the first References, Bibliography or
Works Cited heading (each substitution consumes to the end of the
string), then remove the three inline-citation forms, then strip. -/
def remove_references (text : String) : String :=
  let t1 := truncAtFirst matchRefAt text.data
  let t2 := truncAtFirst matchBibAt t1
  let t3 := truncAtFirst matchWorksCitedAt t2
  let t4 := subAll matchBracketNum t3
  let t5 := subAll matchCiteYear t4
  let t6 := subAll matchCiteEtAl t5
  pyStrip ⟨t6⟩

/-- The single-quote character (written by code point). -/
def squoteChar : Char := Char.ofNat 39

/-- Matcher for a double-quoted span: a double quote, any run of
non-double-quote characters, a double quote. -/
def matchDquote : List Char → Option ℕ
  | '"' :: rest =>
    let inner := rest.takeWhile (fun c => c ≠ '"')
    (match rest.drop inner.length with
     | '"' :: _ => some (inner.length + 2)
     | _ => none)
  | _ => none

/-- Matcher for a single-quoted span of at least ten characters (the
contraction-safe quote removal): the greedy inner run ends exactly at
the next single quote. -/
def matchSquote10 : List Char → Option ℕ
  | c :: rest =>
    if c = squoteChar then
      let inner := rest.takeWhile (fun d => d ≠ squoteChar)
      if decide (inner.length ≥ 10) then
        match rest.drop inner.length with
        | d :: _ => if d = squoteChar then some (inner.length + 2) else none
        | [] => none
      else none
    else none
  | [] => none

/-- Split on newline characters, keeping empty lines (the newline itself
is not part of any line). -/
def splitLines : List Char → List (List Char)
  | [] => [[]]
  | c :: rest =>
    let ls := splitLines rest
    if c = '\n' then [] :: ls
    else
      match ls with
      | [] => [[c]]
      | h :: t => (c :: h) :: t

/-- Join lines with newline characters. -/
def joinLines : List (List Char) → List Char
  | [] => []
  | [h] => h
  | h :: t => h ++ '\n' :: joinLines t

/-- remove_quotes: remove double-quoted spans, remove single-quoted spans
of at least ten characters, blank out block-quote lines (a multiline
anchored pattern removes the line body and keeps the newline), then
strip. -/
def remove_quotes (text : String) : String :=
  let t1 := subAll matchDquote text.data
  let t2 := subAll matchSquote10 t1
  let t3 := joinLines ((splitLines t2).map
    (fun line => if line.head? = some '>' then [] else line))
  pyStrip ⟨t3⟩

/-- Whitespace-run collapsing: every maximal run of whitespace becomes a
single space (the whitespace-collapse substitution of
preprocess_document), tracked with a previous-was-space flag. -/
def collapseAux : Bool → List Char → List Char
  | _, [] => []
  | prevSp, c :: cs =>
    if pyIsSpace c then
      if prevSp then collapseAux true cs else ' ' :: collapseAux true cs
    else c :: collapseAux false cs

/-- Collapse whitespace runs to single spaces. -/
def collapseWs (l : List Char) : List Char :=
  collapseAux false l

/-- Characters kept by the special-character filter of
preprocess_document: word characters, whitespace, and the listed basic
punctuation. -/
def keepChar (c : Char) : Bool :=
  isWordChar c || pyIsSpace c ||
    c = '.' || c = ',' || c = '!' || c = '?' || c = ';' || c = ':' || c = '-'

/-- preprocess_document: optionally remove references, optionally remove
quotes, collapse whitespace, drop characters outside the kept class,
strip. -/
def preprocess_document (text : String)
    (remove_refs remove_quotes_flag : Bool) : String :=
  let t1 := if remove_refs then remove_references text else text
  let t2 := if remove_quotes_flag then remove_quotes t1 else t1
  let t3 := collapseWs t2.data
  pyStrip ⟨t3.filter keepChar⟩

/-! ## Exceptions (core/exceptions.py, embedded error kinds) -/

/-- Application exception classes relevant to extraction and checking
(each carries its detail string, as the HTTPException subclasses do). -/
inductive AppError where
  | fileUploadError (detail : String)
  | plagiarismCheckError (detail : String)
deriving DecidableEq, Repr

/-- The detail payload of an application error. -/
def AppError.detailOf : AppError → String
  | .fileUploadError d => d
  | .plagiarismCheckError d => d

/-- The class (type) of an application error, forgetting the detail
message: two errors are of the same kind exactly when a Python caller
catching by exception class cannot tell them apart. -/
def errKind : AppError → ℕ
  | .fileUploadError _ => 0
  | .plagiarismCheckError _ => 1

/-! ## file_utils.py -/

/-- A byte of file data. -/
abbrev Byte := Fin 256

/-- Strict UTF-8 decoding to code points, as bytes.decode with the utf-8
codec: rejects continuation-byte starts, overlong encodings, surrogate
code points, values beyond the Unicode range and truncated sequences.
Fuel is the input length; each step consumes at least one byte. -/
def utf8Aux : ℕ → List ℕ → Option (List ℕ)
  | 0, [] => some []
  | 0, _ :: _ => none
  | _ + 1, [] => some []
  | fuel + 1, b :: rest =>
    if b ≤ 0x7F then (utf8Aux fuel rest).map (b :: ·)
    else if 0xC2 ≤ b ∧ b ≤ 0xDF then
      match rest with
      | b1 :: r2 =>
        if 0x80 ≤ b1 ∧ b1 ≤ 0xBF then
          (utf8Aux fuel r2).map (((b - 0xC0) * 0x40 + (b1 - 0x80)) :: ·)
        else none
      | [] => none
    else if 0xE0 ≤ b ∧ b ≤ 0xEF then
      match rest with
      | b1 :: b2 :: r3 =>
        if (0x80 ≤ b1 ∧ b1 ≤ 0xBF) ∧ (0x80 ≤ b2 ∧ b2 ≤ 0xBF) ∧
            (b ≠ 0xE0 ∨ 0xA0 ≤ b1) ∧ (b ≠ 0xED ∨ b1 ≤ 0x9F) then
          (utf8Aux fuel r3).map
            (((b - 0xE0) * 0x1000 + (b1 - 0x80) * 0x40 + (b2 - 0x80)) :: ·)
        else none
      | _ => none
    else if 0xF0 ≤ b ∧ b ≤ 0xF4 then
      match rest with
      | b1 :: b2 :: b3 :: r4 =>
        if (0x80 ≤ b1 ∧ b1 ≤ 0xBF) ∧ (0x80 ≤ b2 ∧ b2 ≤ 0xBF) ∧
            (0x80 ≤ b3 ∧ b3 ≤ 0xBF) ∧
            (b ≠ 0xF0 ∨ 0x90 ≤ b1) ∧ (b ≠ 0xF4 ∨ b1 ≤ 0x8F) then
          (utf8Aux fuel r4).map
            (((b - 0xF0) * 0x40000 + (b1 - 0x80) * 0x1000 +
              (b2 - 0x80) * 0x40 + (b3 - 0x80)) :: ·)
        else none
      | _ => none
    else none

/-- bytes.decode(utf-8), strict. -/
def utf8Decode (bs : List Byte) : Option (List ℕ) :=
  utf8Aux bs.length (bs.map (fun b => b.val))

/-- Render a list of code points as a string (all code points produced by
the decoders below are valid scalar values). -/
def cpToString (l : List ℕ) : String :=
  ⟨l.map Char.ofNat⟩

/-- bytes.decode(latin-1): total, each byte is its own code point. -/
def latin1Decode (bs : List Byte) : Option String :=
  some ⟨bs.map (fun b => Char.ofNat b.val)⟩

/-- The Windows-1252 mapping of the 0x80-0x9F block (code points; the
five holes return none). -/
def cp1252Char (n : ℕ) : Option ℕ :=
  if n < 0x80 ∨ 0x9F < n then some n
  else if n = 0x81 ∨ n = 0x8D ∨ n = 0x8F ∨ n = 0x90 ∨ n = 0x9D then none
  else some <|
    if n = 0x80 then 0x20AC else if n = 0x82 then 0x201A
    else if n = 0x83 then 0x0192 else if n = 0x84 then 0x201E
    else if n = 0x85 then 0x2026 else if n = 0x86 then 0x2020
    else if n = 0x87 then 0x2021 else if n = 0x88 then 0x02C6
    else if n = 0x89 then 0x2030 else if n = 0x8A then 0x0160
    else if n = 0x8B then 0x2039 else if n = 0x8C then 0x0152
    else if n = 0x8E then 0x017D else if n = 0x91 then 0x2018
    else if n = 0x92 then 0x2019 else if n = 0x93 then 0x201C
    else if n = 0x94 then 0x201D else if n = 0x95 then 0x2022
    else if n = 0x96 then 0x2013 else if n = 0x97 then 0x2014
    else if n = 0x98 then 0x02DC else if n = 0x99 then 0x2122
    else if n = 0x9A then 0x0161 else if n = 0x9B then 0x203A
    else if n = 0x9C then 0x0153 else if n = 0x9E then 0x017E
    else 0x0178

/-- bytes.decode(cp1252): fails on the five unmapped bytes. -/
def cp1252Decode (bs : List Byte) : Option String :=
  (bs.mapM (fun b => cp1252Char b.val)).map cpToString

/-- bytes.decode(iso-8859-1): the same total byte-to-code-point map as
latin-1 (listed separately because the source loop lists it
separately). -/
def iso88591Decode (bs : List Byte) : Option String :=
  latin1Decode bs

/-- The ordered fallback loop of the txt branch: try each decoder in
turn, returning the first success. -/
def firstDecode : List (List Byte → Option String) → List Byte → Option String
  | [], _ => none
  | d :: ds, bs =>
    match d bs with
    | some s => some s
    | none => firstDecode ds bs

/-- get_file_extension: a dot followed by the lowercased part after the
last dot, or the empty string when the filename has no dot. -/
def get_file_extension (filename : String) : String :=
  if filename.data.contains '.' then
    "." ++ pyToLower ⟨(filename.data.reverse.takeWhile
      (fun c => c ≠ '.')).reverse⟩
  else ""

/-- A search result as produced by the googlesearch client (title and
description may be missing). -/
structure SearchResult where
  url : String
  title : Option String
  description : Option String
deriving DecidableEq, Repr

/-- The external collaborators of the core, at exactly the call
boundaries used by the Python code: the PDF page extractor, the DOCX
paragraph extractor, the TF-IDF fit plus cosine-similarity step (given
the full document batch, target first, it yields one raw similarity in
the zero-to-one range per remaining document, or raises), the
googlesearch call outcome, and the NLTK word tokenizer (none when it
raises). -/
structure Env where
  pdfParse : List Byte → Except String (List String)
  docxParse : List Byte → Except String (List String)
  engine : List String → Except String (List ℚ)
  search : Except String (List SearchResult)
  tok : String → Option (List String)

/-- convert_pdf_to_text: concatenate the per-page extracted text, each
page followed by a newline, and strip; any parser failure becomes a
FileUploadError with the failed-conversion detail. -/
def convert_pdf_to_text (env : Env) (file_data : List Byte) :
    Except AppError String :=
  match env.pdfParse file_data with
  | .ok pages => .ok (pyStrip (String.join (pages.map (· ++ "\n"))))
  | .error e => .error (.fileUploadError ("Failed to convert PDF: " ++ e))

/-- convert_docx_to_text: concatenate the paragraph texts, each followed
by a newline, and strip; any parser failure becomes a FileUploadError
with the failed-conversion detail. -/
def convert_docx_to_text (env : Env) (file_data : List Byte) :
    Except AppError String :=
  match env.docxParse file_data with
  | .ok paras => .ok (pyStrip (String.join (paras.map (· ++ "\n"))))
  | .error e => .error (.fileUploadError ("Failed to convert DOCX: " ++ e))

/-- convert_to_text: dispatch on the filename extension; txt decodes as
UTF-8 and then tries latin-1, cp1252 and iso-8859-1 in order before
reporting an undecodable file; an unsupported extension is reported with
the unsupported-file-type detail. -/
def convert_to_text (env : Env) (file_data : List Byte) (filename : String) :
    Except AppError String :=
  let ext := get_file_extension filename
  if ext = ".pdf" then convert_pdf_to_text env file_data
  else if ext = ".docx" then convert_docx_to_text env file_data
  else if ext = ".txt" then
    match utf8Decode file_data with
    | some cps => .ok (cpToString cps)
    | none =>
      match firstDecode [latin1Decode, cp1252Decode, iso88591Decode]
          file_data with
      | some s => .ok s
      | none => .error (.fileUploadError "Unable to decode text file")
  else .error (.fileUploadError ("Unsupported file type: " ++ ext))

/-! ## plagiarism_service.py data model -/

/-- A similarity match entry as built by the comparison loops. -/
structure SimMatch where
  assignment_id : ℤ
  filename : String
  user_name : String
  similarity : ℚ
deriving DecidableEq, Repr

/-- An external source entry as built from a search result. -/
structure ExternalSource where
  url : String
  title : String
  snippet : String
deriving DecidableEq, Repr

/-- The plagiarism report dictionary (checked_at, a wall-clock timestamp,
is not modelled). -/
structure Report where
  assignment_id : ℤ
  filename : String
  plagiarism_percentage : ℚ
  «matches» : List SimMatch
  external_sources : List ExternalSource
  threshold : ℚ
  passed : Bool
deriving DecidableEq, Repr

/-- An assignment row, restricted to the fields read or written by the
plagiarism service (user name fields are inlined from the related user
row). -/
structure Assignment where
  id : ℤ
  filename : String
  file_data : List Byte
  course : String
  fname : String
  lname : Option String
  obtmarks : Option ℤ
  totalmarks : Option ℤ
  auto_graded : Bool
  comment : Option String
  status : String
  plagiarism_report : Option Report
  plagiarism_percentage : Option ℚ
deriving DecidableEq, Repr

/-- The displayed user name: first name, a space, the last name or the
empty string when missing, stripped. -/
def userNameOf (a : Assignment) : String :=
  pyStrip (a.fname ++ " " ++ a.lname.getD "")

/-- The result of one check: the returned report, the updated assignment
row as committed, and whether the external-source advisor was invoked. -/
structure CheckResult where
  report : Report
  assignment : Assignment
  advisorCalled : Bool
deriving DecidableEq, Repr

/-! ## plagiarism_service.py operations -/

/-- Python max with a default: the maximum of the list, or the default
when the list is empty. -/
def pyMaxD (l : List ℚ) (d : ℚ) : ℚ :=
  match l with
  | [] => d
  | x :: xs => xs.foldl max x

/-- Corpus assembly of _compare_with_assignments: enumerate the pool from
one, extract and preprocess each peer under the requested flags, skip
peers whose extraction or preprocessing raises; each surviving peer
keeps its enumeration index (the assignment-map key). -/
def prepPeers (env : Env) (pool : List Assignment)
    (exclude_references exclude_quotes : Bool) :
    List (ℕ × Assignment × String) :=
  (List.enumFrom 1 pool).filterMap (fun p =>
    match convert_to_text env p.2.file_data p.2.filename with
    | .ok t =>
      some (p.1, p.2, preprocess_document t exclude_references exclude_quotes)
    | .error _ => none)

/-- The document batch handed to the vectorizer: the target text followed
by the surviving peer texts in order. -/
def documentsOf (target_text : String)
    (assocs : List (ℕ × Assignment × String)) : List String :=
  target_text :: assocs.map (fun x => x.2.2)

/-- The match-building loop over the similarity row: enumerate the
similarities from one, keep those whose enumeration index is a key of
the assignment map, scale to a percentage, keep scores above the
five-percent significance floor, round to two decimals. -/
def buildMatches (sims : List ℚ)
    (assocs : List (ℕ × Assignment × String)) : List SimMatch :=
  (List.enumFrom 1 sims).filterMap (fun p =>
    match assocs.find? (fun x => x.1 == p.1) with
    | some x =>
      let sp := p.2 * 100
      if sp > 5 then
        some { assignment_id := x.2.1.id, filename := x.2.1.filename,
               user_name := userNameOf x.2.1, similarity := pyRound2 sp }
      else none
    | none => none)

/-- Stable descending insertion by similarity: an element moves past
exactly the entries with strictly greater similarity, so insertion from
the right reproduces the stable reverse sort of list.sort with a
similarity key. -/
def insortDesc (m : SimMatch) : List SimMatch → List SimMatch
  | [] => [m]
  | x :: xs =>
    if x.similarity ≤ m.similarity then m :: x :: xs
    else x :: insortDesc m xs

/-- matches.sort(key similarity, reverse): stable descending sort. -/
def sortBySimDesc (l : List SimMatch) : List SimMatch :=
  l.foldr insortDesc []

/-- The per-peer body of the Jaccard fallback loop, applied to an already
prepared peer text: word sets, intersection over union scaled to a
percentage, kept only when the union is nonempty and the score exceeds
the five-percent floor, rounded to two decimals. -/
def jaccardMatchOf (tok : String → Option (List String))
    (target_words : Finset String) (a : Assignment) (text : String) :
    Option SimMatch :=
  let words := get_word_set tok text
  let inter := (target_words ∩ words).card
  let uni := (target_words ∪ words).card
  if 0 < uni then
    let sim := ((inter : ℚ) / (uni : ℚ)) * 100
    if sim > 5 then
      some { assignment_id := a.id, filename := a.filename,
             user_name := userNameOf a, similarity := pyRound2 sim }
    else none
  else none

/-- _fallback_comparison: for every pool assignment, re-extract and
preprocess with the default flags (no reference or quote exclusion),
score with Jaccard similarity against the target word set, skip peers
whose extraction raises, and sort descending. -/
def fallbackComparison (env : Env) (target_text : String)
    (pool : List Assignment) : List SimMatch :=
  let target_words := get_word_set env.tok target_text
  sortBySimDesc (pool.filterMap (fun a =>
    match convert_to_text env a.file_data a.filename with
    | .ok t =>
      jaccardMatchOf env.tok target_words a (preprocess_document t false false)
    | .error _ => none))

/-- _compare_with_assignments: assemble the corpus, return no matches when
no peer survived, otherwise run the TF-IDF engine on the batch and build
the sorted matches; when the engine raises, fall back to the Jaccard
comparison over the original pool. -/
def compareWithAssignments (env : Env) (target_text : String)
    (pool : List Assignment) (exclude_references exclude_quotes : Bool) :
    List SimMatch :=
  let assocs := prepPeers env pool exclude_references exclude_quotes
  let documents := documentsOf target_text assocs
  if documents.length ≤ 1 then []
  else
    match env.engine documents with
    | .ok sims => sortBySimDesc (buildMatches sims assocs)
    | .error _ => fallbackComparison env target_text pool

/-- _check_external_sources: map the search results to external sources
(title falling back to the url when missing or empty, snippet truncated
to 220 characters); any failure of the search yields the empty list. -/
def checkExternalSources (env : Env) : List ExternalSource :=
  match env.search with
  | .ok results =>
    results.map (fun r =>
      { url := r.url,
        title :=
          match r.title with
          | some t => if t = "" then r.url else t
          | none => r.url,
        snippet := (r.description.getD "").take 220 })
  | .error _ => []

/-- _create_empty_report: the empty-pool shortcut; percent zero, no
matches, no external sources, passed true, report attached, status set
to Checked, grading fields untouched, advisor not invoked. -/
def createEmptyReport (a : Assignment) (threshold : ℚ) : CheckResult :=
  let report : Report :=
    { assignment_id := a.id, filename := a.filename,
      plagiarism_percentage := 0, «matches» := [], external_sources := [],
      threshold := threshold, passed := true }
  { report := report,
    assignment :=
      { a with plagiarism_report := some report,
               plagiarism_percentage := some 0, status := "Checked" },
    advisorCalled := false }

/-- The body of the successful non-empty-pool branch of check_plagiarism,
given the extracted raw target text (named separately so the proofs can
speak about its fields): preprocess the target, compare with the pool,
consult the advisor, take the maximum match similarity with default
zero, build the report with the strict passed comparison, auto-grade
when the maximum reaches the threshold, attach the report, and mark the
assignment Checked. -/
def mainResult (env : Env) (assignment : Assignment) (threshold : ℚ)
    (pool : List Assignment) (exclude_references exclude_quotes : Bool)
    (raw_text : String) : CheckResult :=
  let target_text :=
    preprocess_document raw_text exclude_references exclude_quotes
  let «matches» :=
    compareWithAssignments env target_text pool
      exclude_references exclude_quotes
  let external_sources := checkExternalSources env
  let max_similarity := pyMaxD («matches».map (fun m => m.similarity)) 0
  let report : Report :=
    { assignment_id := assignment.id, filename := assignment.filename,
      plagiarism_percentage := pyRound2 max_similarity,
      «matches» := «matches», external_sources := external_sources,
      threshold := threshold,
      passed := decide (max_similarity < threshold) }
  let a1 :=
    if threshold ≤ max_similarity then
      { assignment with
          obtmarks := some 0, totalmarks := some 100, auto_graded := true,
          comment := some ("Automatic Grade: 0 (Plagiarism detected: " ++
            fmt2 max_similarity ++ "%)") }
    else assignment
  { report := report,
    assignment :=
      { a1 with plagiarism_report := some report,
                plagiarism_percentage := some (pyRound2 max_similarity),
                status := "Checked" },
    advisorCalled := true }

/-- check_plagiarism, from the point where the target assignment and the
threshold have been loaded: empty pool takes the empty-report shortcut;
otherwise extract the target (a target extraction failure is re-raised
as PlagiarismCheckError by the outer handler) and run the main branch
(mainResult above). -/
def check_plagiarism (env : Env) (assignment : Assignment) (threshold : ℚ)
    (pool : List Assignment) (exclude_references exclude_quotes : Bool) :
    Except AppError CheckResult :=
  if pool.isEmpty then .ok (createEmptyReport assignment threshold)
  else
    match convert_to_text env assignment.file_data assignment.filename with
    | .error e => .error (.plagiarismCheckError e.detailOf)
    | .ok raw_text =>
      .ok (mainResult env assignment threshold pool
        exclude_references exclude_quotes raw_text)

/-- Modelled from the spec: the fallback comparison the specification
describes, run against the same prepared corpus as the primary strategy
(the peer texts extracted and normalized under the requested exclusion
flags), scoring every surviving peer of that prepared corpus with the
Jaccard strategy.  Used only to compare the specified behaviour with
fallbackComparison above. -/
def specFallbackOverPrepared (env : Env) (target_text : String)
    (pool : List Assignment) (exclude_references exclude_quotes : Bool) :
    List SimMatch :=
  let target_words := get_word_set env.tok target_text
  sortBySimDesc
    ((prepPeers env pool exclude_references exclude_quotes).filterMap
      (fun x => jaccardMatchOf env.tok target_words x.2.1 x.2.2))

/-- The ordering the claim about match lists states: descending by
similarity with ties broken by ascending peer id. -/
def claimedMatchOrder (ms : List SimMatch) : Prop :=
  List.Pairwise (fun x y => y.similarity < x.similarity ∨
    (y.similarity = x.similarity ∧ x.assignment_id < y.assignment_id)) ms

/-! ## Concrete fixtures for witnesses and counterexamples -/

/-- ASCII text rendered as file bytes. -/
def strBytes (s : String) : List Byte :=
  s.data.map (fun c => (⟨c.toNat % 256, by omega⟩ : Byte))

/-- An environment in which every external collaborator fails: the
parsers and the similarity engine raise, the search raises a network
error and the NLTK tokenizer raises (falling back to plain splitting). -/
def envFailAll : Env :=
  { pdfParse := fun _ => .error "corrupt",
    docxParse := fun _ => .error "corrupt",
    engine := fun _ => .error "empty vocabulary",
    search := .error "network unreachable",
    tok := fun _ => none }

/-- An assignment fixture: a txt file with the given content, an existing
manual grade of seven out of fifty, not auto-graded, not yet checked. -/
def mkAssignment (i : ℤ) (fn content : String) : Assignment :=
  { id := i, filename := fn, file_data := strBytes content, course := "c",
    fname := "U", lname := some (toString i), obtmarks := some 7,
    totalmarks := some 50, auto_graded := false, comment := none,
    status := "Submitted", plagiarism_report := none,
    plagiarism_percentage := none }

/-- As envFailAll, but the engine returns an equal similarity of one half
for two documents. -/
def envEqualSims : Env :=
  { envFailAll with engine := fun _ => .ok [1 / 2, 1 / 2] }

/-- As envFailAll, but the engine returns similarities of one tenth and
one half for two documents. -/
def envTwoSims : Env :=
  { envFailAll with engine := fun _ => .ok [1 / 10, 1 / 2] }

/-- The target fixture. -/
def tgtA : Assignment := mkAssignment 1 "t.txt" "alpha beta"

/-- A peer whose text carries a References section. -/
def peerRef : Assignment := mkAssignment 7 "p.txt" "alpha beta References gamma"

/-- Peer with id five, same text as the target. -/
def peer5 : Assignment := mkAssignment 5 "a.txt" "alpha beta"

/-- Peer with id two, same text as the target. -/
def peer2 : Assignment := mkAssignment 2 "b.txt" "alpha beta"

/-- Peer with id twenty. -/
def peer20 : Assignment := mkAssignment 20 "b.txt" "bbb ccc"

/-- Peer with id thirty. -/
def peer30 : Assignment := mkAssignment 30 "c.txt" "ddd eee"

/-- A peer whose filename has an unsupported extension, so its extraction
always fails. -/
def peerBad : Assignment := mkAssignment 10 "bad.xyz" "x"

/-- The check result of the two-equal-peers scenario (used by witnesses). -/
def resTie : CheckResult :=
  match check_plagiarism envEqualSims tgtA 40 [peer5, peer2] false false with
  | .ok r => r
  | .error _ => createEmptyReport tgtA 40

/-! ## Lemmas: rounding and maxima -/

/-- Rounding to two decimals is the identity on exact hundredths. -/
theorem pyRound2_of_div (n : ℤ) : pyRound2 ((n : ℚ) / 100) = (n : ℚ) / 100 := by
  unfold pyRound2 rhe
  have h1 : ((n : ℚ) / 100) * 100 = (n : ℚ) := by
    field_simp
  rw [h1, Int.floor_intCast, sub_self]
  norm_num

/-- Every rounded value is an exact hundredth. -/
theorem pyRound2_shape (q : ℚ) : ∃ n : ℤ, pyRound2 q = (n : ℚ) / 100 :=
  ⟨rhe (q * 100), rfl⟩

/-- A left fold of max starts at or above its initial value. -/
theorem le_foldl_max_init (xs : List ℚ) (x : ℚ) : x ≤ xs.foldl max x := by
  induction xs generalizing x with
  | nil => exact le_refl x
  | cons y ys ih =>
    exact le_trans (le_max_left x y) (ih (max x y))

/-- A left fold of max bounds every list element. -/
theorem le_foldl_max_mem (xs : List ℚ) (x a : ℚ) (h : a ∈ xs) :
    a ≤ xs.foldl max x := by
  induction xs generalizing x with
  | nil => cases h
  | cons y ys ih =>
    rcases List.mem_cons.mp h with rfl | hmem
    · exact le_trans (le_max_right x a) (le_foldl_max_init ys (max x a))
    · exact ih (max x y) hmem

/-- A left fold of max is one of the initial value and the elements. -/
theorem foldl_max_mem (xs : List ℚ) (x : ℚ) : xs.foldl max x ∈ x :: xs := by
  induction xs generalizing x with
  | nil => simp
  | cons y ys ih =>
    simp only [List.foldl_cons]
    rcases List.mem_cons.mp (ih (max x y)) with h | h
    · rcases max_choice x y with hm | hm
      · exact List.mem_cons.mpr (Or.inl (h.trans hm))
      · exact List.mem_cons.mpr (Or.inr (List.mem_cons.mpr (Or.inl (h.trans hm))))
    · exact List.mem_cons.mpr (Or.inr (List.mem_cons.mpr (Or.inr h)))

/-- The Python max with default is one of the elements when the list is
nonempty. -/
theorem pyMaxD_mem (l : List ℚ) (d : ℚ) (h : l ≠ []) : pyMaxD l d ∈ l := by
  match l with
  | [] => exact absurd rfl h
  | x :: xs => exact foldl_max_mem xs x

/-- The Python max with default bounds every element. -/
theorem le_pyMaxD (l : List ℚ) (d a : ℚ) (h : a ∈ l) : a ≤ pyMaxD l d := by
  match l with
  | [] => cases h
  | x :: xs =>
    rcases List.mem_cons.mp h with rfl | hmem
    · exact le_foldl_max_init xs a
    · exact le_foldl_max_mem xs x a hmem

/-- The Python max of an empty list is the default. -/
theorem pyMaxD_nil (d : ℚ) : pyMaxD [] d = d := rfl

/-- A nonempty list of hundredths has a hundredth as Python max. -/
theorem pyMaxD_shape (l : List ℚ)
    (h : ∀ x ∈ l, ∃ n : ℤ, x = (n : ℚ) / 100) :
    ∃ n : ℤ, pyMaxD l 0 = (n : ℚ) / 100 := by
  rcases eq_or_ne l [] with rfl | hne
  · exact ⟨0, by norm_num [pyMaxD_nil]⟩
  · exact h _ (pyMaxD_mem l 0 hne)

/-! ## Lemmas: the stable descending sort -/

/-- Membership through one insertion. -/
theorem mem_insortDesc (a m : SimMatch) (l : List SimMatch) :
    a ∈ insortDesc m l ↔ a = m ∨ a ∈ l := by
  induction l with
  | nil => simp [insortDesc]
  | cons x xs ih =>
    by_cases hc : x.similarity ≤ m.similarity
    · simp [insortDesc, hc]
    · simp only [insortDesc, if_neg hc, List.mem_cons, ih]
      tauto

/-- Membership through the sort. -/
theorem mem_sortBySimDesc (a : SimMatch) (l : List SimMatch) :
    a ∈ sortBySimDesc l ↔ a ∈ l := by
  induction l with
  | nil => simp [sortBySimDesc]
  | cons x xs ih =>
    simp only [sortBySimDesc, List.foldr_cons] at *
    rw [mem_insortDesc, ih, List.mem_cons]

/-- Insertion preserves the descending-by-similarity invariant. -/
theorem pairwise_insortDesc (m : SimMatch) (l : List SimMatch)
    (hl : List.Pairwise (fun x y => y.similarity ≤ x.similarity) l) :
    List.Pairwise (fun x y => y.similarity ≤ x.similarity) (insortDesc m l) := by
  induction l with
  | nil => simp [insortDesc]
  | cons x xs ih =>
    rcases List.pairwise_cons.mp hl with ⟨hx, hxs⟩
    by_cases hc : x.similarity ≤ m.similarity
    · rw [insortDesc, if_pos hc]
      refine List.pairwise_cons.mpr ⟨?_, hl⟩
      intro b hb
      rcases List.mem_cons.mp hb with rfl | hmem
      · exact hc
      · exact le_trans (hx b hmem) hc
    · rw [insortDesc, if_neg hc]
      refine List.pairwise_cons.mpr ⟨?_, ih hxs⟩
      intro b hb
      rcases (mem_insortDesc b m xs).mp hb with rfl | hmem
      · exact le_of_lt (lt_of_not_le hc)
      · exact hx b hmem

/-- The sorted match list is descending by similarity. -/
theorem sorted_sortBySimDesc (l : List SimMatch) :
    List.Pairwise (fun x y => y.similarity ≤ x.similarity) (sortBySimDesc l) := by
  induction l with
  | nil => simp [sortBySimDesc]
  | cons x xs ih =>
    exact pairwise_insortDesc x (sortBySimDesc xs) ih

/-- Inserting an element does not disturb the subsequence of any fixed
similarity value: the element lands before every entry of its own
similarity (it is inserted from the right, so it is earlier in the
original list) and the entries it moves past are strictly greater. -/
theorem filter_insortDesc (m : SimMatch) (l : List SimMatch) (s : ℚ) :
    (insortDesc m l).filter (fun x => decide (x.similarity = s)) =
      if m.similarity = s then
        m :: l.filter (fun x => decide (x.similarity = s))
      else l.filter (fun x => decide (x.similarity = s)) := by
  induction l with
  | nil =>
    by_cases hm : m.similarity = s <;> simp [insortDesc, List.filter, hm]
  | cons x xs ih =>
    by_cases hc : x.similarity ≤ m.similarity
    · rw [insortDesc, if_pos hc]
      by_cases hm : m.similarity = s <;> simp [List.filter, hm]
    · rw [insortDesc, if_neg hc]
      by_cases hm : m.similarity = s
      · have hx : ¬ (x.similarity = s) := by
          intro hxs
          exact hc (le_of_eq (hxs.trans hm.symm))
        simp [List.filter, hx, hm, ih]
      · by_cases hx : x.similarity = s <;> simp [List.filter, hx, hm, ih]

/-- The stable sort preserves, for every similarity value, the original
relative order of the entries carrying that value. -/
theorem filter_sortBySimDesc (l : List SimMatch) (s : ℚ) :
    (sortBySimDesc l).filter (fun x => decide (x.similarity = s)) =
      l.filter (fun x => decide (x.similarity = s)) := by
  induction l with
  | nil => rfl
  | cons x xs ih =>
    show (insortDesc x (sortBySimDesc xs)).filter _ = _
    rw [filter_insortDesc]
    by_cases hx : x.similarity = s <;> simp [List.filter, hx, ih]

/-! ## Lemmas: every reported similarity is an exact hundredth -/

/-- Matches built from the engine row carry rounded similarities. -/
theorem sim_shape_buildMatches (sims : List ℚ)
    (assocs : List (ℕ × Assignment × String)) (m : SimMatch)
    (hm : m ∈ buildMatches sims assocs) :
    ∃ n : ℤ, m.similarity = (n : ℚ) / 100 := by
  unfold buildMatches at hm
  rcases List.mem_filterMap.mp hm with ⟨p, -, hp⟩
  rcases hfind : assocs.find? (fun x => x.1 == p.1) with _ | x
  · rw [hfind] at hp
    cases hp
  · rw [hfind] at hp
    dsimp only at hp
    by_cases hgt : p.2 * 100 > 5
    · rw [if_pos hgt] at hp
      cases hp
      exact pyRound2_shape (p.2 * 100)
    · rw [if_neg hgt] at hp
      cases hp

/-- Matches built by the Jaccard body carry rounded similarities. -/
theorem sim_shape_jaccard (tok : String → Option (List String))
    (tw : Finset String) (a : Assignment) (t : String) (m : SimMatch)
    (hm : jaccardMatchOf tok tw a t = some m) :
    ∃ n : ℤ, m.similarity = (n : ℚ) / 100 := by
  unfold jaccardMatchOf at hm
  by_cases hu : 0 < (tw ∪ get_word_set tok t).card
  · rw [if_pos hu] at hm
    by_cases hgt :
        (((tw ∩ get_word_set tok t).card : ℚ) /
          ((tw ∪ get_word_set tok t).card : ℚ)) * 100 > 5
    · rw [if_pos hgt] at hm
      cases hm
      exact pyRound2_shape _
    · rw [if_neg hgt] at hm
      cases hm
  · rw [if_neg hu] at hm
    cases hm

/-- Matches of the fallback comparison carry rounded similarities. -/
theorem sim_shape_fallback (env : Env) (target_text : String)
    (pool : List Assignment) (m : SimMatch)
    (hm : m ∈ fallbackComparison env target_text pool) :
    ∃ n : ℤ, m.similarity = (n : ℚ) / 100 := by
  unfold fallbackComparison at hm
  rw [mem_sortBySimDesc] at hm
  rcases List.mem_filterMap.mp hm with ⟨a, -, ha⟩
  rcases hconv : convert_to_text env a.file_data a.filename with e | t
  · rw [hconv] at ha
    cases ha
  · rw [hconv] at ha
    exact sim_shape_jaccard env.tok _ a _ m ha

/-- Matches of the comparison step carry rounded similarities. -/
theorem sim_shape_compare (env : Env) (target_text : String)
    (pool : List Assignment) (r q : Bool) (m : SimMatch)
    (hm : m ∈ compareWithAssignments env target_text pool r q) :
    ∃ n : ℤ, m.similarity = (n : ℚ) / 100 := by
  unfold compareWithAssignments at hm
  by_cases hlen :
      (documentsOf target_text (prepPeers env pool r q)).length ≤ 1
  · rw [if_pos hlen] at hm
    cases hm
  · rw [if_neg hlen] at hm
    rcases heng : env.engine (documentsOf target_text (prepPeers env pool r q))
        with e | sims
    · rw [heng] at hm
      exact sim_shape_fallback env target_text pool m hm
    · rw [heng] at hm
      rw [mem_sortBySimDesc] at hm
      exact sim_shape_buildMatches sims _ m hm

/-- The maximum similarity computed in the main branch is an exact
hundredth, hence survives the final rounding unchanged. -/
theorem maxsim_round_fixed (env : Env) (target_text : String)
    (pool : List Assignment) (r q : Bool) :
    pyRound2 (pyMaxD ((compareWithAssignments env target_text pool r q).map
        (fun m => m.similarity)) 0) =
      pyMaxD ((compareWithAssignments env target_text pool r q).map
        (fun m => m.similarity)) 0 := by
  have hshape : ∀ x ∈ (compareWithAssignments env target_text pool r q).map
      (fun m => m.similarity), ∃ n : ℤ, x = (n : ℚ) / 100 := by
    intro x hx
    rcases List.mem_map.mp hx with ⟨m, hm, rfl⟩
    exact sim_shape_compare env target_text pool r q m hm
  rcases pyMaxD_shape _ hshape with ⟨n, hn⟩
  rw [hn, pyRound2_of_div]

/-! ## Lemmas: case analysis of a successful check -/

/-- A successful check is either the empty-pool shortcut or the main
branch on the extracted target text. -/
theorem check_cases (env : Env) (a : Assignment) (th : ℚ)
    (pool : List Assignment) (r q : Bool) (res : CheckResult)
    (h : check_plagiarism env a th pool r q = Except.ok res) :
    (pool = [] ∧ res = createEmptyReport a th) ∨
    (pool ≠ [] ∧ ∃ raw, convert_to_text env a.file_data a.filename =
        Except.ok raw ∧ res = mainResult env a th pool r q raw) := by
  unfold check_plagiarism at h
  rcases hpool : pool with _ | ⟨p, ps⟩
  · rw [hpool] at h
    simp only [List.isEmpty_nil, if_true] at h
    exact Or.inl ⟨rfl, (Except.ok.injEq _ _).mp h.symm⟩
  · rw [hpool] at h
    simp only [List.isEmpty_cons, if_false, Bool.false_eq_true] at h
    rcases hconv : convert_to_text env a.file_data a.filename with e | raw
    · rw [hconv] at h
      cases h
    · rw [hconv] at h
      refine Or.inr ⟨by simp, raw, rfl, ?_⟩
      exact ((Except.ok.injEq _ _).mp h).symm

/-- The comparison step always returns a descending match list (both the
primary and the fallback branch sort before returning). -/
theorem sorted_compare (env : Env) (target_text : String)
    (pool : List Assignment) (r q : Bool) :
    List.Pairwise (fun x y => y.similarity ≤ x.similarity)
      (compareWithAssignments env target_text pool r q) := by
  unfold compareWithAssignments
  by_cases hlen :
      (documentsOf target_text (prepPeers env pool r q)).length ≤ 1
  · rw [if_pos hlen]
    exact List.Pairwise.nil
  · rw [if_neg hlen]
    rcases env.engine (documentsOf target_text (prepPeers env pool r q))
        with e | sims
    · unfold fallbackComparison
      exact sorted_sortBySimDesc _
    · exact sorted_sortBySimDesc _

/-! ## Claim theorems -/

/-- C1 counterexample: a check with an empty pool and a threshold of zero
produces a report whose passed field is true although the computed score
zero is not strictly below the threshold zero, contradicting the claim
that passed always equals the strict comparison. -/
theorem C1_counterexample :
    check_plagiarism envFailAll tgtA 0 [] false false =
        Except.ok (createEmptyReport tgtA 0) ∧
      (createEmptyReport tgtA 0).report.passed = true ∧
      ¬ ((createEmptyReport tgtA 0).report.plagiarism_percentage <
          (createEmptyReport tgtA 0).report.threshold) := by
  refine ⟨rfl, rfl, ?_⟩
  decide

/-- C1 (amended): on every check with a non-empty comparison pool the
report's passed field equals the strict comparison of the reported score
with the threshold (a score exactly equal to the threshold fails); the
empty-pool shortcut instead hardcodes passed to true regardless of the
threshold. -/
theorem C1_passed_strict (env : Env) (a : Assignment) (th : ℚ)
    (pool : List Assignment) (r q : Bool) (res : CheckResult)
    (h : check_plagiarism env a th pool r q = Except.ok res) :
    (pool ≠ [] → (res.report.passed = true ↔
      res.report.plagiarism_percentage < res.report.threshold)) ∧
    (pool = [] → res.report.passed = true) := by
  rcases check_cases env a th pool r q res h with
    ⟨hpool, hres⟩ | ⟨hpool, raw, _, hres⟩
  · subst hres
    exact ⟨fun hne => absurd hpool hne, fun _ => rfl⟩
  · subst hres
    refine ⟨fun _ => ?_, fun h0 => absurd h0 hpool⟩
    have hfix := maxsim_round_fixed env (preprocess_document raw r q) pool r q
    simp only [mainResult]
    rw [hfix]
    exact decide_eq_true_iff

/-- C1 witness: the amended statement instantiated at the two-equal-peers
scenario. -/
theorem C1_witness :
    (([peer5, peer2] : List Assignment) ≠ [] → (resTie.report.passed = true ↔
      resTie.report.plagiarism_percentage < resTie.report.threshold)) ∧
    (([peer5, peer2] : List Assignment) = [] → resTie.report.passed = true) :=
  C1_passed_strict envEqualSims tgtA 40 [peer5, peer2] false false resTie
    (by rfl)

/-- C2: in every produced report the plagiarism percentage is the maximum
of the similarities of the included matches, or zero when the match list
is empty. -/
theorem C2_percent_is_max (env : Env) (a : Assignment) (th : ℚ)
    (pool : List Assignment) (r q : Bool) (res : CheckResult)
    (h : check_plagiarism env a th pool r q = Except.ok res) :
    (res.report.«matches» = [] → res.report.plagiarism_percentage = 0) ∧
    (res.report.«matches» ≠ [] →
      res.report.plagiarism_percentage ∈
        res.report.«matches».map (fun m => m.similarity) ∧
      ∀ m ∈ res.report.«matches»,
        m.similarity ≤ res.report.plagiarism_percentage) := by
  have hr0 : pyRound2 0 = 0 := by
    have := pyRound2_of_div 0
    norm_num at this
    simpa using this
  rcases check_cases env a th pool r q res h with
    ⟨_, hres⟩ | ⟨_, raw, _, hres⟩
  · subst hres
    exact ⟨fun _ => rfl, fun hne => absurd rfl hne⟩
  · subst hres
    have hfix := maxsim_round_fixed env (preprocess_document raw r q) pool r q
    simp only [mainResult]
    constructor
    · intro hnil
      rw [hnil]
      simpa [pyMaxD_nil] using hr0
    · intro hne
      rw [hfix]
      have hmapne : (compareWithAssignments env
          (preprocess_document raw r q) pool r q).map
            (fun m => m.similarity) ≠ [] := by
        simpa using hne
      refine ⟨pyMaxD_mem _ 0 hmapne, ?_⟩
      intro m hm
      exact le_pyMaxD _ 0 m.similarity (List.mem_map_of_mem _ hm)

/-- C2 witness: the statement instantiated at the two-equal-peers
scenario, whose report has two matches of similarity fifty. -/
theorem C2_witness :
    (resTie.report.«matches» = [] →
      resTie.report.plagiarism_percentage = 0) ∧
    (resTie.report.«matches» ≠ [] →
      resTie.report.plagiarism_percentage ∈
        resTie.report.«matches».map (fun m => m.similarity) ∧
      ∀ m ∈ resTie.report.«matches»,
        m.similarity ≤ resTie.report.plagiarism_percentage) :=
  C2_percent_is_max envEqualSims tgtA 40 [peer5, peer2] false false resTie
    (by rfl)

/-- C3: a check with an empty comparison pool returns the empty-report
shortcut: percentage zero, no matches, passed true, no external sources,
advisor not invoked, report attached and status set to Checked. -/
theorem C3_empty_pool (env : Env) (a : Assignment) (th : ℚ) (r q : Bool) :
    check_plagiarism env a th [] r q = Except.ok (createEmptyReport a th) ∧
    (createEmptyReport a th).report.plagiarism_percentage = 0 ∧
    (createEmptyReport a th).report.«matches» = [] ∧
    (createEmptyReport a th).report.passed = true ∧
    (createEmptyReport a th).report.external_sources = [] ∧
    (createEmptyReport a th).advisorCalled = false ∧
    (createEmptyReport a th).assignment.status = "Checked" ∧
    (createEmptyReport a th).assignment.plagiarism_report =
      some (createEmptyReport a th).report :=
  ⟨rfl, rfl, rfl, rfl, rfl, rfl, rfl, rfl⟩

/-- C4 counterexample: with the reference-exclusion flag requested and the
engine failing, the fallback does not score the prepared corpus: the
peer whose prepared text was truncated at its References heading is
scored against its unstripped text (similarity fifty) instead of its
prepared text (similarity one hundred). -/
theorem C4_counterexample :
    (envFailAll.engine (documentsOf "alpha beta"
        (prepPeers envFailAll [peerRef] true false))).isOk = false ∧
    (compareWithAssignments envFailAll "alpha beta" [peerRef]
        true false).map (fun m => m.similarity) = [50] ∧
    (specFallbackOverPrepared envFailAll "alpha beta" [peerRef]
        true false).map (fun m => m.similarity) = [100] ∧
    compareWithAssignments envFailAll "alpha beta" [peerRef] true false ≠
      specFallbackOverPrepared envFailAll "alpha beta" [peerRef] true false := by
  refine ⟨rfl, by with_unfolding_all rfl, by with_unfolding_all rfl, ?_⟩
  with_unfolding_all decide

/-- C4 (amended): the fallback strategy is invoked exactly when the
primary engine raises (and the engine only runs when some peer survived
corpus assembly); but the invoked fallback re-extracts the pool and
normalizes it with the default flags, so it scores the
default-normalized corpus rather than the prepared corpus of the
requested exclusion flags. -/
theorem C4_fallback_iff (env : Env) (target_text : String)
    (pool : List Assignment) (r q : Bool) :
    (∀ e, env.engine (documentsOf target_text (prepPeers env pool r q)) =
        Except.error e →
      prepPeers env pool r q ≠ [] →
      compareWithAssignments env target_text pool r q =
        fallbackComparison env target_text pool) ∧
    (∀ sims, env.engine (documentsOf target_text (prepPeers env pool r q)) =
        Except.ok sims →
      prepPeers env pool r q ≠ [] →
      compareWithAssignments env target_text pool r q =
        sortBySimDesc (buildMatches sims (prepPeers env pool r q))) ∧
    fallbackComparison env target_text pool =
      sortBySimDesc (pool.filterMap (fun a =>
        match convert_to_text env a.file_data a.filename with
        | .ok t => jaccardMatchOf env.tok (get_word_set env.tok target_text) a
            (preprocess_document t false false)
        | .error _ => none)) := by
  have hlen : ∀ hne : prepPeers env pool r q ≠ [],
      ¬ (documentsOf target_text (prepPeers env pool r q)).length ≤ 1 := by
    intro hne
    have hpos : 0 < (prepPeers env pool r q).length := List.length_pos.mpr hne
    simp only [documentsOf, List.length_cons, List.length_map]
    omega
  refine ⟨?_, ?_, rfl⟩
  · intro e heng hne
    unfold compareWithAssignments
    rw [if_neg (hlen hne), heng]
  · intro sims heng hne
    unfold compareWithAssignments
    rw [if_neg (hlen hne), heng]

/-- C4 witness: the amended statement instantiated at the failing-engine
scenario with the reference-carrying peer. -/
theorem C4_witness :
    compareWithAssignments envFailAll "alpha beta" [peerRef] true false =
      fallbackComparison envFailAll "alpha beta" [peerRef] :=
  (C4_fallback_iff envFailAll "alpha beta" [peerRef] true false).1
    "empty vocabulary" rfl (by decide)

/-- C5 counterexample: a check with an empty pool and a threshold of zero
reaches a report whose percentage zero is not strictly below the
threshold, yet no grading field is touched, contradicting the claim that
every check with percentage at or above the threshold auto-grades. -/
theorem C5_counterexample :
    check_plagiarism envFailAll tgtA 0 [] false false =
        Except.ok (createEmptyReport tgtA 0) ∧
      (createEmptyReport tgtA 0).report.threshold ≤
        (createEmptyReport tgtA 0).report.plagiarism_percentage ∧
      (createEmptyReport tgtA 0).assignment.auto_graded = false ∧
      (createEmptyReport tgtA 0).assignment.totalmarks = some 50 ∧
      (createEmptyReport tgtA 0).assignment.obtmarks = some 7 ∧
      (createEmptyReport tgtA 0).assignment.comment = none := by
  refine ⟨rfl, ?_, rfl, rfl, rfl, rfl⟩
  decide

/-- C5 (amended): on every check with a non-empty comparison pool, a
percentage at or above the threshold forces totalmarks one hundred,
obtmarks zero, auto_graded true and the percentage comment, and a
percentage strictly below leaves the four grading fields unchanged; the
empty-pool shortcut never touches the grading fields, even when the
threshold is not positive. -/
theorem C5_autograde (env : Env) (a : Assignment) (th : ℚ)
    (pool : List Assignment) (r q : Bool) (res : CheckResult)
    (h : check_plagiarism env a th pool r q = Except.ok res) :
    (pool ≠ [] →
      (res.report.threshold ≤ res.report.plagiarism_percentage →
        res.assignment.totalmarks = some 100 ∧
        res.assignment.obtmarks = some 0 ∧
        res.assignment.auto_graded = true ∧
        res.assignment.comment =
          some ("Automatic Grade: 0 (Plagiarism detected: " ++
            fmt2 res.report.plagiarism_percentage ++ "%)")) ∧
      (res.report.plagiarism_percentage < res.report.threshold →
        res.assignment.totalmarks = a.totalmarks ∧
        res.assignment.obtmarks = a.obtmarks ∧
        res.assignment.auto_graded = a.auto_graded ∧
        res.assignment.comment = a.comment)) ∧
    (pool = [] →
      res.assignment.totalmarks = a.totalmarks ∧
      res.assignment.obtmarks = a.obtmarks ∧
      res.assignment.auto_graded = a.auto_graded ∧
      res.assignment.comment = a.comment) := by
  rcases check_cases env a th pool r q res h with
    ⟨hpool, hres⟩ | ⟨hpool, raw, -, hres⟩
  · subst hres
    exact ⟨fun hne => absurd hpool hne, fun _ => ⟨rfl, rfl, rfl, rfl⟩⟩
  · subst hres
    refine ⟨fun _ => ?_, fun h0 => absurd h0 hpool⟩
    have hfix := maxsim_round_fixed env (preprocess_document raw r q) pool r q
    constructor
    · intro hge
      simp only [mainResult] at hge ⊢
      rw [hfix] at hge ⊢
      rw [if_pos hge]
      exact ⟨rfl, rfl, rfl, rfl⟩
    · intro hlt
      simp only [mainResult] at hlt ⊢
      rw [hfix] at hlt
      rw [if_neg (not_le.mpr hlt)]
      exact ⟨rfl, rfl, rfl, rfl⟩

/-- C5 witness: the amended statement instantiated at the two-equal-peers
scenario, whose maximum similarity fifty exceeds the threshold forty. -/
theorem C5_witness :
    (([peer5, peer2] : List Assignment) ≠ [] →
      (resTie.report.threshold ≤ resTie.report.plagiarism_percentage →
        resTie.assignment.totalmarks = some 100 ∧
        resTie.assignment.obtmarks = some 0 ∧
        resTie.assignment.auto_graded = true ∧
        resTie.assignment.comment =
          some ("Automatic Grade: 0 (Plagiarism detected: " ++
            fmt2 resTie.report.plagiarism_percentage ++ "%)")) ∧
      (resTie.report.plagiarism_percentage < resTie.report.threshold →
        resTie.assignment.totalmarks = tgtA.totalmarks ∧
        resTie.assignment.obtmarks = tgtA.obtmarks ∧
        resTie.assignment.auto_graded = tgtA.auto_graded ∧
        resTie.assignment.comment = tgtA.comment)) ∧
    (([peer5, peer2] : List Assignment) = [] →
      resTie.assignment.totalmarks = tgtA.totalmarks ∧
      resTie.assignment.obtmarks = tgtA.obtmarks ∧
      resTie.assignment.auto_graded = tgtA.auto_graded ∧
      resTie.assignment.comment = tgtA.comment) :=
  C5_autograde envEqualSims tgtA 40 [peer5, peer2] false false resTie
    (by rfl)

/-- C6 counterexample: a check whose pool lists the peer with id five
before the peer with id two, both scored equally, reports the matches in
pool order (five before two), so equal scores are not ordered by
ascending peer id. -/
theorem C6_counterexample :
    (compareWithAssignments envEqualSims "alpha beta" [peer5, peer2]
        false false).map (fun m => (m.assignment_id, m.similarity)) =
      [(5, 50), (2, 50)] ∧
    ¬ claimedMatchOrder
      (compareWithAssignments envEqualSims "alpha beta" [peer5, peer2]
        false false) := by
  have hlist : compareWithAssignments envEqualSims "alpha beta"
      [peer5, peer2] false false =
      [{ assignment_id := 5, filename := "a.txt", user_name := "U 5",
         similarity := 50 },
       { assignment_id := 2, filename := "b.txt", user_name := "U 2",
         similarity := 50 }] := by
    with_unfolding_all rfl
  refine ⟨by with_unfolding_all rfl, ?_⟩
  intro hord
  rw [claimedMatchOrder, hlist] at hord
  rcases (List.pairwise_cons.mp hord).1 _ (List.mem_singleton.mpr rfl) with
    hlt | ⟨-, hid⟩
  · exact absurd hlt (by norm_num)
  · exact absurd hid (by norm_num)

/-- C6 (amended): every produced report's match list is sorted descending
by similarity, and the sort is stable: for every similarity value the
entries carrying it keep the relative order in which the peers were
processed (pool order), rather than being reordered by peer id. -/
theorem C6_sorted_stable (env : Env) (a : Assignment) (th : ℚ)
    (pool : List Assignment) (r q : Bool) (res : CheckResult)
    (h : check_plagiarism env a th pool r q = Except.ok res) :
    List.Pairwise (fun x y => y.similarity ≤ x.similarity)
      res.report.«matches» ∧
    (∀ (l : List SimMatch) (s : ℚ),
      (sortBySimDesc l).filter (fun m => decide (m.similarity = s)) =
        l.filter (fun m => decide (m.similarity = s))) := by
  refine ⟨?_, fun l s => filter_sortBySimDesc l s⟩
  rcases check_cases env a th pool r q res h with
    ⟨-, hres⟩ | ⟨-, raw, -, hres⟩
  · subst hres
    exact List.Pairwise.nil
  · subst hres
    simp only [mainResult]
    exact sorted_compare env (preprocess_document raw r q) pool r q

/-- C6 witness: the amended statement instantiated at the two-equal-peers
scenario. -/
theorem C6_witness :
    List.Pairwise (fun x y => y.similarity ≤ x.similarity)
      resTie.report.«matches» ∧
    (∀ (l : List SimMatch) (s : ℚ),
      (sortBySimDesc l).filter (fun m => decide (m.similarity = s)) =
        l.filter (fun m => decide (m.similarity = s))) :=
  C6_sorted_stable envEqualSims tgtA 40 [peer5, peer2] false false resTie
    (by rfl)

/-- C7: evaluation of the misalignment at the failing input.  The pool
has three peers; the first fails extraction (unsupported extension), the
other two survive corpus assembly with enumeration indices two and
three, and the engine scores them one tenth and one half.  The produced
match list attributes the second survivor's fifty percent score to the
first survivor (id twenty) and loses the other survivor (id thirty)
entirely, instead of reporting each remaining peer with its own score:
the similarity-row positions are matched against enumeration indices of
the original pool, which disagree as soon as one peer was skipped. -/
theorem C7_misalignment :
    (prepPeers envTwoSims [peerBad, peer20, peer30] false false).map
        (fun x => (x.1, x.2.1.id)) = [(2, 20), (3, 30)] ∧
    compareWithAssignments envTwoSims "alpha beta" [peerBad, peer20, peer30]
        false false =
      [{ assignment_id := 20, filename := "b.txt", user_name := "U 20",
         similarity := 50 }] := by
  constructor
  · with_unfolding_all rfl
  · with_unfolding_all rfl

/-- C8: a failing external-source lookup never propagates: it yields an
empty external_sources list, and a check whose target extracts and whose
pool is non-empty still completes, attaches its report and marks the
document Checked. -/
theorem C8_advisor_absorbed (env : Env) (a : Assignment) (th : ℚ)
    (pool : List Assignment) (r q : Bool) (msg : String)
    (hs : env.search = Except.error msg) :
    checkExternalSources env = [] ∧
    (∀ raw, convert_to_text env a.file_data a.filename = Except.ok raw →
      pool ≠ [] →
      ∃ res, check_plagiarism env a th pool r q = Except.ok res ∧
        res.report.external_sources = [] ∧
        res.assignment.status = "Checked" ∧
        res.assignment.plagiarism_report = some res.report) := by
  have hext : checkExternalSources env = [] := by
    unfold checkExternalSources
    rw [hs]
  refine ⟨hext, ?_⟩
  intro raw hraw hne
  refine ⟨mainResult env a th pool r q raw, ?_, ?_, rfl, rfl⟩
  · unfold check_plagiarism
    rcases pool with _ | ⟨p, ps⟩
    · exact absurd rfl hne
    · simp only [List.isEmpty_cons, Bool.false_eq_true, if_false]
      rw [hraw]
  · simp only [mainResult]
    exact hext

/-- C8 witness: the statement instantiated at the failing-search
environment with a txt target and one peer. -/
theorem C8_witness :
    ∃ res, check_plagiarism envFailAll tgtA 40 [peer5] false false =
        Except.ok res ∧
      res.report.external_sources = [] ∧
      res.assignment.status = "Checked" ∧
      res.assignment.plagiarism_report = some res.report :=
  (C8_advisor_absorbed envFailAll tgtA 40 [peer5] false false
      "network unreachable" rfl).2 "alpha beta" (by rfl)
    (List.cons_ne_nil peer5 [])

/-- C9 counterexample: an unsupported extension and a PDF parse failure
produce errors of the same kind (both are FileUploadError), so the two
failure cases are not distinguishable by error type, contradicting the
claim that they are distinct error kinds. -/
theorem C9_counterexample :
    convert_to_text envFailAll (strBytes "x") "a.xyz" =
        Except.error (.fileUploadError "Unsupported file type: .xyz") ∧
    convert_to_text envFailAll (strBytes "x") "b.pdf" =
        Except.error (.fileUploadError "Failed to convert PDF: corrupt") ∧
    errKind (.fileUploadError "Unsupported file type: .xyz") =
      errKind (.fileUploadError "Failed to convert PDF: corrupt") :=
  ⟨rfl, rfl, rfl⟩

/-- C9 (amended): the extractor signals an unsupported extension and a
decode or parse failure with the same exception type, FileUploadError;
the caller can distinguish the two cases only by the detail message (the
unsupported-file-type text versus the failed-conversion texts). -/
theorem C9_error_types (env : Env) (bs : List Byte) (filename : String) :
    (get_file_extension filename ≠ ".pdf" →
      get_file_extension filename ≠ ".docx" →
      get_file_extension filename ≠ ".txt" →
      convert_to_text env bs filename = Except.error (.fileUploadError
        ("Unsupported file type: " ++ get_file_extension filename))) ∧
    (∀ msg, get_file_extension filename = ".pdf" →
      env.pdfParse bs = Except.error msg →
      convert_to_text env bs filename = Except.error (.fileUploadError
        ("Failed to convert PDF: " ++ msg))) ∧
    (∀ msg, get_file_extension filename = ".docx" →
      env.docxParse bs = Except.error msg →
      convert_to_text env bs filename = Except.error (.fileUploadError
        ("Failed to convert DOCX: " ++ msg))) ∧
    (∀ d1 d2, errKind (.fileUploadError d1) = errKind (.fileUploadError d2)) := by
  refine ⟨?_, ?_, ?_, fun d1 d2 => rfl⟩
  · intro h1 h2 h3
    unfold convert_to_text
    rw [if_neg h1, if_neg h2, if_neg h3]
  · intro msg hext hparse
    unfold convert_to_text
    rw [if_pos hext]
    unfold convert_pdf_to_text
    rw [hparse]
  · intro msg hext hparse
    unfold convert_to_text
    rw [hext]
    rw [if_neg (by decide : ¬ (".docx" : String) = ".pdf"), if_pos rfl]
    unfold convert_docx_to_text
    rw [hparse]

/-- C9 witness: the amended statement instantiated at the unsupported
extension, the failing PDF parser and the failing DOCX parser. -/
theorem C9_witness :
    convert_to_text envFailAll (strBytes "x") "a.xyz" =
        Except.error (.fileUploadError ("Unsupported file type: " ++
          get_file_extension "a.xyz")) ∧
    convert_to_text envFailAll (strBytes "x") "b.pdf" =
        Except.error (.fileUploadError ("Failed to convert PDF: corrupt")) ∧
    convert_to_text envFailAll (strBytes "x") "c.docx" =
        Except.error (.fileUploadError ("Failed to convert DOCX: corrupt")) :=
  ⟨(C9_error_types envFailAll (strBytes "x") "a.xyz").1
      (by decide) (by decide) (by decide),
    (C9_error_types envFailAll (strBytes "x") "b.pdf").2.1
      "corrupt" (by rfl) rfl,
    (C9_error_types envFailAll (strBytes "x") "c.docx").2.2.1
      "corrupt" (by rfl) rfl⟩

/-- C10: extraction of a txt file never fails, for any byte content: the
UTF-8 attempt may fail, but the fallback loop tries latin-1 first, which
decodes every byte sequence, so the undecodable-file branch is
unreachable. -/
theorem C10_txt_total (env : Env) (bs : List Byte) (filename : String)
    (h : get_file_extension filename = ".txt") :
    ∃ t, convert_to_text env bs filename = Except.ok t := by
  unfold convert_to_text
  rw [h]
  rw [if_neg (by decide : ¬ (".txt" : String) = ".pdf"),
    if_neg (by decide : ¬ (".txt" : String) = ".docx"), if_pos rfl]
  rcases hu : utf8Decode bs with _ | cps
  · exact ⟨_, rfl⟩
  · exact ⟨_, rfl⟩

/-- C10 witness: the statement instantiated at a byte that is not valid
UTF-8 (so the latin-1 fallback is exercised). -/
theorem C10_witness :
    ∃ t, convert_to_text envFailAll [(⟨255, by omega⟩ : Byte)] "f.txt" =
      Except.ok t :=
  C10_txt_total envFailAll [(⟨255, by omega⟩ : Byte)] "f.txt" (by rfl)
